import Mathlib

/-!
Verification of the heartbeat streaming-ingestion pipeline.

This file gives a shallow embedding, in Lean 4, of the parts of the
pipeline that the specification's claims are about:

* the event model and its validators (`services/common/models.py`),
* the JSON wire form of a heartbeat event (producer serialization and
  pydantic-style deserialization),
* the retrying storage layer (`services/common/db.py`): the retry
  envelope `_with_retry`, `insert_heartbeat`, `upsert_checkpoint`,
* the ingest consumer's per-message state machine
  (`services/consumer/consumer.py`),
* the anomaly rule engine
  (`services/anomaly_detector/anomaly_rules.py`) and the anomaly
  consumer's per-message flow
  (`services/anomaly_detector/detector.py`).

Machine integers are modelled as `Int`/`Nat` (Python integers are
unbounded), fallible code returns `Except`/`Option`, and the external
collaborators (Kafka, PostgreSQL, the system clock and the UUID
generator) are modelled by explicit parameters describing their
responses, so that every consumer loop becomes a pure function of the
message sequence and of the environment's dispositions.
-/

namespace HB

/-! ## JSON values

Python `json.loads` on the pipeline's wire messages yields dicts whose
values are strings and integers; we model a decoded JSON object as an
association list from keys to scalar values (first binding wins, as in
a Python dict built from unique keys). -/

inductive JVal where
  | jstr (s : String)
  | jint (n : Int)
deriving DecidableEq, Repr

abbrev JObj := List (String × JVal)

/-- Lookup of a key in a decoded JSON object (Python dict access). -/
def jlookup (j : JObj) (k : String) : Option JVal :=
  match j with
  | [] => none
  | (k', v) :: rest => if k' = k then some v else jlookup rest k

/-! ## Fixed-width digit rendering and parsing

CPython renders a UUID with a zero-padded fixed-width lowercase hex
format and renders datetime components with zero-padded fixed-width
decimal formats; pydantic parses them back.  `toFix b k n` is the
k-digit base-b rendering of `n % b^k`, most significant digit first;
`readFix b acc k s` consumes exactly `k` digits from `s`. -/

def digitChar (d : Nat) : Char :=
  if d < 10 then Char.ofNat ('0'.toNat + d)
  else if d < 16 then Char.ofNat ('a'.toNat + (d - 10))
  else '?'

def digitVal? (c : Char) : Option Nat :=
  if '0' ≤ c ∧ c ≤ '9' then some (c.toNat - '0'.toNat)
  else if 'a' ≤ c ∧ c ≤ 'f' then some (10 + (c.toNat - 'a'.toNat))
  else if 'A' ≤ c ∧ c ≤ 'F' then some (10 + (c.toNat - 'A'.toNat))
  else none

def toFix (b : Nat) : Nat → Nat → List Char
  | 0, _ => []
  | k + 1, n => toFix b k (n / b) ++ [digitChar (n % b)]

def readFix (b : Nat) : Nat → Nat → List Char → Option (Nat × List Char)
  | acc, 0, rest => some (acc, rest)
  | _, _ + 1, [] => none
  | acc, k + 1, c :: cs =>
    match digitVal? c with
    | some v => if v < b then readFix b (acc * b + v) k cs else none
    | none => none

theorem digitVal?_digitChar {d : Nat} (h : d < 16) :
    digitVal? (digitChar d) = some d := by
  interval_cases d <;> rfl

theorem digitChar_ne_dash {d : Nat} (h : d < 16) : digitChar d ≠ '-' := by
  interval_cases d <;> decide

theorem toFix_length (b k n : Nat) : (toFix b k n).length = k := by
  induction k generalizing n with
  | zero => rfl
  | succ k ih => simp [toFix, ih]

theorem mem_toFix {b k n : Nat} (hb0 : 0 < b) (hb : b ≤ 16) {c : Char}
    (hc : c ∈ toFix b k n) : ∃ d, d < 16 ∧ c = digitChar d := by
  induction k generalizing n with
  | zero => simp [toFix] at hc
  | succ k ih =>
    simp only [toFix, List.mem_append, List.mem_singleton] at hc
    rcases hc with hc | hc
    · exact ih hc
    · exact ⟨n % b, lt_of_lt_of_le (Nat.mod_lt _ hb0) hb, hc⟩

theorem readFix_toFix_append {b : Nat} (hb0 : 0 < b) (hb16 : b ≤ 16) :
    ∀ (k : Nat) (acc n j : Nat) (rest : List Char),
      readFix b acc (k + j) (toFix b k n ++ rest) =
        readFix b (acc * b ^ k + n % b ^ k) j rest := by
  intro k
  induction k with
  | zero =>
    intro acc n j rest
    simp [toFix, Nat.mod_one]
  | succ k ih =>
    intro acc n j rest
    have hdig : n % b < b := Nat.mod_lt _ hb0
    have hstep : (k + 1) + j = k + (j + 1) := by omega
    rw [toFix, List.append_assoc, List.singleton_append, hstep,
      ih acc (n / b) (j + 1) (digitChar (n % b) :: rest)]
    rw [readFix, digitVal?_digitChar (lt_of_lt_of_le hdig hb16)]
    simp only [hdig, if_pos]
    have harith : (acc * b ^ k + n / b % b ^ k) * b + n % b =
        acc * b ^ (k + 1) + n % b ^ (k + 1) := by
      have hm : n % b ^ (k + 1) = n % b + b * (n / b % b ^ k) := by
        rw [pow_succ, mul_comm (b ^ k) b]
        exact Nat.mod_mul
      rw [hm, pow_succ]
      ring
    rw [harith]

/-- Parsing inverts rendering: reading back `k` fixed-width digits of a
number below `b ^ k` recovers the number and leaves the rest. -/
theorem readFix_toFix {b : Nat} (hb0 : 0 < b) (hb16 : b ≤ 16)
    {k n : Nat} (hn : n < b ^ k) (rest : List Char) :
    readFix b 0 k (toFix b k n ++ rest) = some (n, rest) := by
  have h := readFix_toFix_append hb0 hb16 k 0 n 0 rest
  simpa [Nat.mod_eq_of_lt hn, readFix] using h

/-! ## UUID textual form

Python `uuid.UUID` holds a 128-bit integer; `str(u)` renders the 32
lowercase hex digits of that integer (zero padded) and inserts hyphens
after digits 8, 12, 16 and 20, exactly as CPython's
`'%032x' % self.int` followed by the 8-4-4-4-12 grouping.  Parsing
(as in the `UUID` constructor used by pydantic) removes the hyphens
and requires 32 hex digits. -/

def uuidHex (u : Nat) : List Char := toFix 16 32 u

def uuidRender (u : Nat) : List Char :=
  (uuidHex u).take 8 ++ '-' :: ((uuidHex u).drop 8).take 4
    ++ '-' :: ((uuidHex u).drop 12).take 4
    ++ '-' :: ((uuidHex u).drop 16).take 4 ++ '-' :: (uuidHex u).drop 20

def uuidParse (s : List Char) : Option Nat :=
  match readFix 16 0 32 (s.filter (fun c => c ≠ '-')) with
  | some (n, []) => some n
  | _ => none

def uuidStr (u : Nat) : String := ⟨uuidRender u⟩

theorem filter_dash_toFix_piece {l piece : List Char}
    (hsub : ∀ c ∈ piece, c ∈ l) {b k n : Nat} (hb0 : 0 < b) (hb : b ≤ 16)
    (hl : l = toFix b k n) :
    piece.filter (fun c => c ≠ '-') = piece := by
  rw [List.filter_eq_self]
  intro c hc
  obtain ⟨d, hd, rfl⟩ := mem_toFix hb0 hb (hl ▸ hsub c hc)
  simpa using digitChar_ne_dash hd

theorem uuidRender_filter_dash (u : Nat) :
    (uuidRender u).filter (fun c => c ≠ '-') = uuidHex u := by
  have hpiece : ∀ piece : List Char, (∀ c ∈ piece, c ∈ uuidHex u) →
      piece.filter (fun c => c ≠ '-') = piece := by
    intro piece hsub
    exact filter_dash_toFix_piece hsub (by omega) (by omega) rfl
  have h1 := hpiece ((uuidHex u).take 8) (fun c hc => List.mem_of_mem_take hc)
  have h2 := hpiece (((uuidHex u).drop 8).take 4)
    (fun c hc => List.mem_of_mem_drop (List.mem_of_mem_take hc))
  have h3 := hpiece (((uuidHex u).drop 12).take 4)
    (fun c hc => List.mem_of_mem_drop (List.mem_of_mem_take hc))
  have h4 := hpiece (((uuidHex u).drop 16).take 4)
    (fun c hc => List.mem_of_mem_drop (List.mem_of_mem_take hc))
  have h5 := hpiece ((uuidHex u).drop 20) (fun c hc => List.mem_of_mem_drop hc)
  have hdash : ∀ l : List Char,
      ('-' :: l).filter (fun c => c ≠ '-') = l.filter (fun c => c ≠ '-') := by
    intro l
    simp
  rw [uuidRender]
  simp only [List.filter_append, hdash, h1, h2, h3, h4, h5,
    List.append_assoc]
  have e8 : ((uuidHex u).drop 8).drop 4 = (uuidHex u).drop 12 := by
    rw [List.drop_drop]
  have e12 : ((uuidHex u).drop 12).drop 4 = (uuidHex u).drop 16 := by
    rw [List.drop_drop]
  have e16 : ((uuidHex u).drop 16).drop 4 = (uuidHex u).drop 20 := by
    rw [List.drop_drop]
  rw [← e16, List.take_append_drop, ← e12, List.take_append_drop,
    ← e8, List.take_append_drop, List.take_append_drop]

/-- Round trip for the UUID textual form: every 128-bit value survives
render-then-parse bitwise. -/
theorem uuidParse_uuidRender {u : Nat} (hu : u < 2 ^ 128) :
    uuidParse (uuidRender u) = some u := by
  have h16 : u < 16 ^ 32 := by
    have : (16 : Nat) ^ 32 = 2 ^ 128 := by norm_num
    omega
  rw [uuidParse, uuidRender_filter_dash]
  rw [show uuidHex u = toFix 16 32 u ++ [] from (List.append_nil _).symm]
  rw [readFix_toFix (by omega) (by omega) h16]

/-! ## Timestamps

A Python `datetime` with `tzinfo=timezone.utc` is modelled by its broken
down components (the pipeline only ever builds and compares UTC-aware
instants, so the offset is implicitly `+00:00`).  On the wire
(`model_dump(mode="json")`) pydantic renders such a datetime as
RFC-3339 `YYYY-MM-DDTHH:MM:SS[.ffffff]Z`, with the fractional part
omitted when the microsecond field is zero; `datetime.isoformat()` (used
for the stored payload blob) renders the same instant with a `+00:00`
suffix instead of `Z`.  Parsing (pydantic datetime validation) accepts
both suffix forms. -/

structure Timestamp where
  year : Nat
  month : Nat
  day : Nat
  hour : Nat
  minute : Nat
  second : Nat
  usec : Nat
deriving DecidableEq, Repr

/-- Components fit the zero-padded widths of the RFC-3339 rendering
(every real `datetime` satisfies much tighter bounds). -/
def Timestamp.WF (t : Timestamp) : Prop :=
  t.year < 10000 ∧ t.month < 100 ∧ t.day < 100 ∧ t.hour < 100 ∧
    t.minute < 100 ∧ t.second < 100 ∧ t.usec < 1000000

instance (t : Timestamp) : Decidable t.WF := by
  unfold Timestamp.WF
  infer_instance

/-- Date-and-time part shared by both suffix forms. -/
def tsBody (t : Timestamp) : List Char :=
  toFix 10 4 t.year ++ '-' :: (toFix 10 2 t.month ++ '-' :: (toFix 10 2 t.day
    ++ 'T' :: (toFix 10 2 t.hour ++ ':' :: (toFix 10 2 t.minute
    ++ ':' :: (toFix 10 2 t.second
    ++ (if t.usec = 0 then [] else '.' :: toFix 10 6 t.usec))))))

/-- Wire rendering used by the producer (pydantic JSON mode): `Z` suffix. -/
def tsRender (t : Timestamp) : List Char := tsBody t ++ ['Z']

/-- Rendering used for the stored payload blob (`datetime.isoformat()`):
explicit `+00:00` suffix. -/
def tsIso (t : Timestamp) : List Char := tsBody t ++ ['+', '0', '0', ':', '0', '0']

def tsStr (t : Timestamp) : String := ⟨tsRender t⟩

def expectChar (c : Char) : List Char → Option (List Char)
  | [] => none
  | c' :: cs => if c' = c then some cs else none

/-- Optional fractional-seconds part: a dot followed by six digits, or
nothing (microsecond zero). -/
def tsParseFrac : List Char → Option (Nat × List Char)
  | '.' :: cs => readFix 10 0 6 cs
  | cs => some (0, cs)

/-- UTC offset suffix: `Z` or `+00:00`, ending the string. -/
def tsParseOffset : List Char → Option Unit
  | ['Z'] => some ()
  | ['+', '0', '0', ':', '0', '0'] => some ()
  | _ => none

def tsParse (s : List Char) : Option Timestamp := do
  let (y, s) ← readFix 10 0 4 s
  let s ← expectChar '-' s
  let (mo, s) ← readFix 10 0 2 s
  let s ← expectChar '-' s
  let (d, s) ← readFix 10 0 2 s
  let s ← expectChar 'T' s
  let (h, s) ← readFix 10 0 2 s
  let s ← expectChar ':' s
  let (mi, s) ← readFix 10 0 2 s
  let s ← expectChar ':' s
  let (sec, s) ← readFix 10 0 2 s
  let (us, s) ← tsParseFrac s
  let _ ← tsParseOffset s
  pure ⟨y, mo, d, h, mi, sec, us⟩

theorem expectChar_cons (c : Char) (rest : List Char) :
    expectChar c (c :: rest) = some rest := by
  simp [expectChar]

theorem tsParse_tsBody {t : Timestamp} (h : t.WF) (suffix : List Char)
    (hfrac : tsParseFrac suffix = some (0, suffix))
    (hoff : tsParseOffset suffix = some ()) :
    tsParse (tsBody t ++ suffix) = some t := by
  obtain ⟨hy, hmo, hd, hh, hmi, hsec, hus⟩ := h
  rw [tsParse, tsBody]
  simp only [List.append_assoc, List.cons_append]
  rw [readFix_toFix (by omega) (by omega) hy]
  simp only [Option.bind_eq_bind, Option.some_bind, expectChar_cons]
  rw [readFix_toFix (by omega) (by omega) hmo]
  simp only [Option.some_bind, expectChar_cons]
  rw [readFix_toFix (by omega) (by omega) hd]
  simp only [Option.some_bind, expectChar_cons]
  rw [readFix_toFix (by omega) (by omega) hh]
  simp only [Option.some_bind, expectChar_cons]
  rw [readFix_toFix (by omega) (by omega) hmi]
  simp only [Option.some_bind, expectChar_cons]
  rw [readFix_toFix (by omega) (by omega) hsec]
  simp only [Option.some_bind]
  by_cases husz : t.usec = 0
  · have hcond : (if t.usec = 0 then ([] : List Char)
        else '.' :: toFix 10 6 t.usec) = [] := if_pos husz
    rw [hcond, List.nil_append, hfrac]
    simp only [Option.some_bind]
    rw [hoff]
    simp only [Option.some_bind]
    rw [← husz]
    rfl
  · rw [if_neg husz]
    simp only [List.cons_append]
    have hfrac' : tsParseFrac ('.' :: (toFix 10 6 t.usec ++ suffix)) =
        some (t.usec, suffix) := by
      rw [tsParseFrac, readFix_toFix (by omega) (by omega) hus]
    rw [hfrac']
    simp only [Option.some_bind]
    rw [hoff]
    simp only [Option.some_bind]
    rfl

/-- Round trip for the wire form of a UTC timestamp. -/
theorem tsParse_tsRender {t : Timestamp} (h : t.WF) :
    tsParse (tsRender t) = some t :=
  tsParse_tsBody h ['Z'] rfl rfl

/-- Round trip for the `isoformat()` form of a UTC timestamp. -/
theorem tsParse_tsIso {t : Timestamp} (h : t.WF) :
    tsParse (tsIso t) = some t :=
  tsParse_tsBody h ['+', '0', '0', ':', '0', '0'] rfl rfl

/-! ## Configuration (`services/common/config.py`)

Only the fields the claims touch; values are the documented defaults,
and the definitions below take the whole record as a parameter so every
theorem holds for any configured thresholds. -/

structure Settings where
  heart_rate_min : Int
  heart_rate_max : Int
  anomaly_low_threshold : Int
  anomaly_high_threshold : Int
  anomaly_spike_delta : Int
  kafka_topic_raw : String
  kafka_topic_invalid : String
  kafka_topic_anomaly : String
  kafka_topic_dlq : String
  kafka_consumer_group_db : String
  kafka_consumer_group_anomaly : String
deriving DecidableEq, Repr

def settings : Settings :=
  { heart_rate_min := 45
    heart_rate_max := 185
    anomaly_low_threshold := 50
    anomaly_high_threshold := 140
    anomaly_spike_delta := 30
    kafka_topic_raw := "events.raw.v1"
    kafka_topic_invalid := "events.invalid.v1"
    kafka_topic_anomaly := "events.anomaly.v1"
    kafka_topic_dlq := "events.dlq.v1"
    kafka_consumer_group_db := "cg.db-writer.v1"
    kafka_consumer_group_anomaly := "cg.anomaly.v1" }

/-! ## Event model (`services/common/models.py`) -/

/-- Whitespace characters stripped by Python `str.strip()` (the ASCII
ones; the pipeline's identifiers are ASCII). -/
def isPySpace (c : Char) : Bool :=
  c = ' ' ∨ c = '\t' ∨ c = '\n' ∨ c = '\x0b' ∨ c = '\x0c' ∨ c = '\r'

/-- Python `str.strip()`: drop whitespace from both ends. -/
def pyStrip (s : String) : String :=
  ⟨((s.data.dropWhile isPySpace).reverse.dropWhile isPySpace).reverse⟩

/-- Validator `validate_customer_id`: reject blank or whitespace-only
identifiers, store the stripped value. -/
def validate_customer_id (value : String) : Except String String :=
  let stripped := pyStrip value
  if stripped.isEmpty then
    Except.error "customer_id cannot be empty or whitespace"
  else
    Except.ok stripped

/-- Validator `validate_heart_rate_hard_bounds`: enforce the absolute
physiological hard bounds, 0 to 250 bpm. -/
def validate_heart_rate_hard_bounds (value : Int) : Except String Int :=
  if 0 ≤ value ∧ value ≤ 250 then
    Except.ok value
  else
    Except.error ("heart_rate " ++ toString value ++
      " is outside hard physiological bounds [0, 250]")

/-- One heart-rate reading.  `event_id` is the UUID's 128-bit value,
`heart_rate` an unbounded Python integer. -/
structure HeartbeatEvent where
  event_id : Nat
  customer_id : String
  timestamp : Timestamp
  heart_rate : Int
deriving DecidableEq, Repr

/-- Construction of a `HeartbeatEvent` with every field supplied: the
pydantic model runs both field validators (in declaration order) and
freezes the result.  A validator failure surfaces as a validation
error carrying the validator's message. -/
def HeartbeatEvent.construct (event_id : Nat) (customer_id : String)
    (timestamp : Timestamp) (heart_rate : Int) :
    Except String HeartbeatEvent := do
  let cid ← validate_customer_id customer_id
  let hr ← validate_heart_rate_hard_bounds heart_rate
  pure { event_id := event_id, customer_id := cid,
         timestamp := timestamp, heart_rate := hr }

/-- A reading flagged by a rule.  `details` is the rule-specific context
mapping; all its values in the code are integers. -/
structure AnomalyEvent where
  event_id : Nat
  customer_id : String
  timestamp : Timestamp
  heart_rate : Int
  anomaly_type : String
  severity : String
  details : List (String × Int)
deriving DecidableEq, Repr

/-- Quarantine envelope written to the invalid and dlq topics. -/
structure InvalidEvent where
  error : String
  raw : String
  error_type : String
deriving DecidableEq, Repr

/-! ## Wire serialization of a heartbeat event

The producer publishes `json.dumps(event.model_dump(mode="json"))`; the
decoded object has the four keys below, with `event_id` in canonical
hyphenated hex and `timestamp` in RFC-3339 UTC. -/

def HeartbeatEvent.serialize (e : HeartbeatEvent) : JObj :=
  [("event_id", JVal.jstr (uuidStr e.event_id)),
   ("customer_id", JVal.jstr e.customer_id),
   ("timestamp", JVal.jstr (tsStr e.timestamp)),
   ("heart_rate", JVal.jint e.heart_rate)]

/-- Deserialization, `HeartbeatEvent.model_validate(payload)` on a
decoded JSON object.  Pydantic ignores unknown keys (the model does not
forbid extras), requires `customer_id` and `heart_rate` (no default),
and fills `event_id` and `timestamp` from their default factories
(`uuid4()` and `datetime.now(timezone.utc)`) when the key is absent;
those environment-supplied values are the `fresh_uuid` / `now`
parameters.  A present key must hold a value of the right shape, and
the two field validators run as at construction. -/
def parse_event_id (fresh_uuid : Nat) (j : JObj) : Except String Nat :=
  match jlookup j "event_id" with
  | none => Except.ok fresh_uuid
  | some (JVal.jstr s) =>
    match uuidParse s.data with
    | some u => Except.ok u
    | none => Except.error "event_id: Input should be a valid UUID"
  | some _ => Except.error "event_id: Input should be a valid UUID"

def parse_customer_id (j : JObj) : Except String String :=
  match jlookup j "customer_id" with
  | none => Except.error "customer_id: Field required"
  | some (JVal.jstr s) => Except.ok s
  | some _ => Except.error "customer_id: Input should be a valid string"

def parse_timestamp (now : Timestamp) (j : JObj) : Except String Timestamp :=
  match jlookup j "timestamp" with
  | none => Except.ok now
  | some (JVal.jstr s) =>
    match tsParse s.data with
    | some t => Except.ok t
    | none => Except.error "timestamp: Input should be a valid datetime"
  | some _ => Except.error "timestamp: Input should be a valid datetime"

def parse_heart_rate (j : JObj) : Except String Int :=
  match jlookup j "heart_rate" with
  | none => Except.error "heart_rate: Field required"
  | some (JVal.jint n) => Except.ok n
  | some _ => Except.error "heart_rate: Input should be a valid integer"

def model_validate (fresh_uuid : Nat) (now : Timestamp) (j : JObj) :
    Except String HeartbeatEvent := do
  let eid ← parse_event_id fresh_uuid j
  let cidRaw ← parse_customer_id j
  let cid ← validate_customer_id cidRaw
  let ts ← parse_timestamp now j
  let hrRaw ← parse_heart_rate j
  let hr ← validate_heart_rate_hard_bounds hrRaw
  pure { event_id := eid, customer_id := cid, timestamp := ts,
         heart_rate := hr }

/-- Events that can actually occur in the pipeline: the UUID value fits
128 bits, the timestamp components fit their rendered widths, and the
construction-time invariants hold. -/
def HeartbeatEvent.Valid (e : HeartbeatEvent) : Prop :=
  e.event_id < 2 ^ 128 ∧ e.timestamp.WF ∧
    pyStrip e.customer_id = e.customer_id ∧ e.customer_id ≠ "" ∧
    0 ≤ e.heart_rate ∧ e.heart_rate ≤ 250

instance (e : HeartbeatEvent) : Decidable e.Valid := by
  unfold HeartbeatEvent.Valid
  infer_instance

/-! ## Anomaly rule engine
(`services/anomaly_detector/anomaly_rules.py`)

`AnomalyRules.evaluate` is a pure function of the event, the customer's
recent rates (most recent last) and the configured thresholds; it
applies LOW, then HIGH, then SPIKE, first match wins, and returns
`none` when no rule fires. -/

def AnomalyRules.evaluate (cfg : Settings) (event : HeartbeatEvent)
    (recent_rates : List Int) : Option AnomalyEvent :=
  let rate := event.heart_rate
  if rate ≤ cfg.anomaly_low_threshold then
    some { event_id := event.event_id, customer_id := event.customer_id,
           timestamp := event.timestamp, heart_rate := rate,
           anomaly_type := "LOW_HEART_RATE", severity := "high",
           details := [("threshold", cfg.anomaly_low_threshold),
                       ("measured", rate)] }
  else if rate ≥ cfg.anomaly_high_threshold then
    some { event_id := event.event_id, customer_id := event.customer_id,
           timestamp := event.timestamp, heart_rate := rate,
           anomaly_type := "HIGH_HEART_RATE", severity := "high",
           details := [("threshold", cfg.anomaly_high_threshold),
                       ("measured", rate)] }
  else
    match recent_rates.getLast? with
    | some previous =>
      let delta := |rate - previous|
      if delta ≥ cfg.anomaly_spike_delta then
        some { event_id := event.event_id, customer_id := event.customer_id,
               timestamp := event.timestamp, heart_rate := rate,
               anomaly_type := "SPIKE", severity := "medium",
               details := [("delta", delta),
                           ("threshold", cfg.anomaly_spike_delta),
                           ("previous", previous), ("measured", rate)] }
      else
        none
    | none => none

/-! ## Retrying storage layer (`services/common/db.py`)

The retry envelope `_with_retry` wraps a DB operation: on an
`OperationalError` it sleeps and retries with exponential backoff,
doubling the delay, and re-raises the final failure at the last
attempt.  The wrapped operation's behaviour on each attempt is supplied
by the environment as a function from the 1-based attempt number to
that attempt's outcome.  Delays are in milliseconds (the Python floats
0.5, 1.0, ... are exact binary values, so the scaling is lossless); the
function also returns the list of sleeps actually performed. -/

def MAX_RETRIES : Nat := 5

def BASE_BACKOFF_MS : Nat := 500

inductive AttemptResult (α : Type) where
  | ok (a : α)
  | operr (msg : String)
deriving DecidableEq, Repr

/-- Body of the `for attempt in range(1, _MAX_RETRIES + 1)` loop;
`iters` is the number of loop iterations remaining.  `none` is Python's
implicit `return None` when the loop finishes without returning or
raising (unreachable from the real entry point). -/
def withRetryAux {α : Type} (behavior : Nat → AttemptResult α) :
    Nat → Nat → Nat → Option (Except String α) × List Nat
  | _, _, 0 => (none, [])
  | attempt, delay, iters + 1 =>
    match behavior attempt with
    | AttemptResult.ok a => (some (Except.ok a), [])
    | AttemptResult.operr msg =>
      if attempt = MAX_RETRIES then
        (some (Except.error msg), [])
      else
        let rec_result := withRetryAux behavior (attempt + 1) (2 * delay) iters
        (rec_result.1, delay :: rec_result.2)

/-- Full retry envelope, entered at attempt 1 with the base backoff. -/
def withRetry {α : Type} (behavior : Nat → AttemptResult α) :
    Option (Except String α) × List Nat :=
  withRetryAux behavior 1 BASE_BACKOFF_MS MAX_RETRIES

/-! ## Store tables

The relational store is external; its contract (an `INSERT` affects the
rows it says it does, `ON CONFLICT` clauses behave as SQL defines them,
a transaction commits atomically) is modelled by explicit table states.
Rows carry exactly the columns the SQL statements in `db.py` write. -/

structure HeartbeatRow where
  event_id : String
  customer_id : String
  event_time : Timestamp
  heart_rate : Int
  quality_flag : String
  source_topic : String
  source_partition : Nat
  source_offset : Nat
  payload : JObj
deriving DecidableEq, Repr

structure CheckpointRow where
  consumer_group : String
  topic : String
  partition : Nat
  last_offset : Nat
  updated_at : Nat
deriving DecidableEq, Repr

/-- Payload blob stored verbatim for auditing (built in
`insert_heartbeat`; note the `isoformat()` timestamp form). -/
def hbPayload (e : HeartbeatEvent) : JObj :=
  [("event_id", JVal.jstr (uuidStr e.event_id)),
   ("customer_id", JVal.jstr e.customer_id),
   ("timestamp", JVal.jstr ⟨tsIso e.timestamp⟩),
   ("heart_rate", JVal.jint e.heart_rate)]

def hbRow (e : HeartbeatEvent) (topic : String) (partition offset : Nat) :
    HeartbeatRow :=
  { event_id := uuidStr e.event_id, customer_id := e.customer_id,
    event_time := e.timestamp, heart_rate := e.heart_rate,
    quality_flag := "valid", source_topic := topic,
    source_partition := partition, source_offset := offset,
    payload := hbPayload e }

/-- Uniqueness key of `heartbeat_events`. -/
def HeartbeatRow.key (r : HeartbeatRow) : String × String :=
  (r.customer_id, r.event_id)

def hasHbKey (tbl : List HeartbeatRow) (k : String × String) : Bool :=
  tbl.any (fun r => r.key = k)

/-- Number of rows of the table with the given `(customer_id, event_id)`
key. -/
def countHbKey (tbl : List HeartbeatRow) (k : String × String) : Nat :=
  (tbl.filter (fun r => r.key = k)).length

/-- `INSERT ... ON CONFLICT (customer_id, event_id) DO NOTHING` into
`heartbeat_events`; returns the new table and the affected-row count. -/
def insert_heartbeat (tbl : List HeartbeatRow) (e : HeartbeatEvent)
    (topic : String) (partition offset : Nat) : List HeartbeatRow × Nat :=
  if hasHbKey tbl (e.customer_id, uuidStr e.event_id) then
    (tbl, 0)
  else
    (tbl ++ [hbRow e topic partition offset], 1)

/-- `INSERT ... ON CONFLICT (consumer_group, topic, partition) DO UPDATE
SET last_offset = EXCLUDED.last_offset, updated_at = NOW()` into
`ingest_checkpoint`; `now` is the store clock. -/
def upsert_checkpoint (now : Nat) (cps : List CheckpointRow)
    (group topic : String) (partition offset : Nat) : List CheckpointRow :=
  match cps with
  | [] => [{ consumer_group := group, topic := topic, partition := partition,
             last_offset := offset, updated_at := now }]
  | r :: rest =>
    if r.consumer_group = group ∧ r.topic = topic ∧ r.partition = partition then
      { r with last_offset := offset, updated_at := now } :: rest
    else
      r :: upsert_checkpoint now rest group topic partition offset

/-- Plain `INSERT` into `anomalies` — no uniqueness key. -/
def insert_anomaly (tbl : List AnomalyEvent) (a : AnomalyEvent) :
    List AnomalyEvent :=
  tbl ++ [a]

/-! ## Ingest consumer (`services/consumer/consumer.py`)

One polled Kafka message is its provenance plus the decoded shape of
its UTF-8 text: either the text raised `json.JSONDecodeError` in
`json.loads` or it decoded to an object.  The environment supplies the
per-message dispositions of the external collaborators: the default
factories consulted during validation, the outcome of the store
transaction, and the store clock. -/

inductive RawValue where
  | undecodable
  | obj (j : JObj)
deriving DecidableEq, Repr

structure KMsg where
  raw : RawValue
  topic : String
  partition : Nat
  offset : Nat
deriving DecidableEq, Repr

/-- Disposition of the borrowed-connection transaction (both writes plus
the commit on scope exit): it succeeds, or it raises — as a re-raised
`OperationalError` after exhausted retries, or as any other
exception. -/
inductive StoreOutcome where
  | ok
  | transientExhausted
  | otherFault
deriving DecidableEq, Repr

structure IngestEnv where
  fresh_uuid : Nat
  now_ts : Timestamp
  store : StoreOutcome
  clock : Nat
deriving DecidableEq, Repr

inductive Outcome where
  | stored
  | validationQuarantine
  | processingQuarantine
deriving DecidableEq, Repr

structure QuarantinePublish where
  topic : String
  error_type : String
deriving DecidableEq, Repr

structure IngestRes where
  outcome : Outcome
  committed : Bool
  publish : Option QuarantinePublish
deriving DecidableEq, Repr

/-- Databases touched by the pipeline. -/
structure DbState where
  heartbeat_events : List HeartbeatRow
  ingest_checkpoint : List CheckpointRow
  anomalies : List AnomalyEvent
deriving DecidableEq, Repr

/-- Per-message body of the ingest loop: deserialize and
schema-validate, apply the soft domain bounds, write heartbeat row and
checkpoint inside one borrowed connection, then commit the Kafka
offset; the two `except` arms route to the invalid topic (committing)
and the dlq topic (not committing).  A failing transaction leaves the
store unchanged (the connection scope rolls back). -/
def ingestStep (cfg : Settings) (db : DbState) (m : KMsg) (env : IngestEnv) :
    DbState × IngestRes :=
  match m.raw with
  | RawValue.undecodable =>
    (db, { outcome := Outcome.validationQuarantine, committed := true,
           publish := some { topic := cfg.kafka_topic_invalid,
                             error_type := "VALIDATION" } })
  | RawValue.obj j =>
    match model_validate env.fresh_uuid env.now_ts j with
    | Except.error _ =>
      (db, { outcome := Outcome.validationQuarantine, committed := true,
             publish := some { topic := cfg.kafka_topic_invalid,
                               error_type := "VALIDATION" } })
    | Except.ok event =>
      if cfg.heart_rate_min ≤ event.heart_rate ∧
          event.heart_rate ≤ cfg.heart_rate_max then
        match env.store with
        | StoreOutcome.ok =>
          let ins := insert_heartbeat db.heartbeat_events event
            m.topic m.partition m.offset
          let cps := upsert_checkpoint env.clock db.ingest_checkpoint
            cfg.kafka_consumer_group_db m.topic m.partition m.offset
          ({ db with heartbeat_events := ins.1, ingest_checkpoint := cps },
           { outcome := Outcome.stored, committed := true, publish := none })
        | _ =>
          (db, { outcome := Outcome.processingQuarantine, committed := false,
                 publish := some { topic := cfg.kafka_topic_dlq,
                                   error_type := "PROCESSING" } })
      else
        (db, { outcome := Outcome.validationQuarantine, committed := true,
               publish := some { topic := cfg.kafka_topic_invalid,
                                 error_type := "VALIDATION" } })

/-- State threaded through a run of the ingest loop: the store, the
source offsets the consumer has committed (each with its topic and
partition), and — among those — the ones committed on the store-write
path (after the heartbeat insert plus checkpoint upsert
transaction). -/
structure IngestLoopState where
  db : DbState
  committed : List (String × Nat × Nat)
  storeCommitted : List (String × Nat × Nat)
deriving DecidableEq, Repr

def ingestLoopStep (cfg : Settings) (st : IngestLoopState)
    (me : KMsg × IngestEnv) : IngestLoopState :=
  let r := ingestStep cfg st.db me.1 me.2
  { db := r.1,
    committed :=
      if r.2.committed then
        st.committed ++ [(me.1.topic, me.1.partition, me.1.offset)]
      else
        st.committed,
    storeCommitted :=
      if r.2.outcome = Outcome.stored then
        st.storeCommitted ++ [(me.1.topic, me.1.partition, me.1.offset)]
      else
        st.storeCommitted }

/-- A run of the ingest loop over a finite message sequence. -/
def ingestRun (cfg : Settings) (st : IngestLoopState)
    (msgs : List (KMsg × IngestEnv)) : IngestLoopState :=
  msgs.foldl (ingestLoopStep cfg) st

/-- A committed source offset is covered by the checkpoint table when
some `ingest_checkpoint` row for its consumer group, topic and
partition records a `last_offset` at least that offset. -/
def cpCovers (cps : List CheckpointRow) (group topic : String)
    (partition offset : Nat) : Prop :=
  ∃ r ∈ cps, r.consumer_group = group ∧ r.topic = topic ∧
    r.partition = partition ∧ offset ≤ r.last_offset

instance (cps : List CheckpointRow) (group topic : String)
    (partition offset : Nat) :
    Decidable (cpCovers cps group topic partition offset) := by
  unfold cpCovers
  infer_instance

/-- Claim C5 as stated: every committed offset of the run is covered by
a checkpoint row. -/
def ingestCommitCheckpointClaim (cfg : Settings) (st : IngestLoopState) :
    Prop :=
  ∀ tpo ∈ st.committed,
    cpCovers st.db.ingest_checkpoint cfg.kafka_consumer_group_db
      tpo.1 tpo.2.1 tpo.2.2

instance (cfg : Settings) (st : IngestLoopState) :
    Decidable (ingestCommitCheckpointClaim cfg st) := by
  unfold ingestCommitCheckpointClaim
  infer_instance

/-- Offsets within one (topic, partition) arrive in nondecreasing
order — the Kafka per-partition delivery order seen by a single
consumer instance. -/
def OffsetsOrdered (msgs : List (KMsg × IngestEnv)) : Prop :=
  msgs.Pairwise (fun a b => a.1.topic = b.1.topic →
    a.1.partition = b.1.partition → a.1.offset ≤ b.1.offset)

/-! ## Anomaly consumer (`services/anomaly_detector/detector.py`) -/

/-- Disposition of the persist-and-publish block for a detected anomaly:
`insert_anomaly` raises (connection scope rolls back, nothing
published), or the insert commits and the publish to the anomaly topic
raises, or everything succeeds. -/
inductive AnomalyPersist where
  | insertFails
  | publishFails
  | allOk
deriving DecidableEq, Repr

structure DetectorMsg where
  raw : RawValue
  fresh_uuid : Nat
  now_ts : Timestamp
  persist : AnomalyPersist
deriving DecidableEq, Repr

/-- Per-customer rolling history: `defaultdict(lambda: deque(maxlen=6))`
read as the empty list for an unseen customer. -/
def lookupHist (hs : List (String × List Int)) (cid : String) : List Int :=
  match hs with
  | [] => []
  | (c, l) :: rest => if c = cid then l else lookupHist rest cid

def setHist (hs : List (String × List Int)) (cid : String) (l : List Int) :
    List (String × List Int) :=
  match hs with
  | [] => [(cid, l)]
  | (c, l') :: rest =>
    if c = cid then (c, l) :: rest else (c, l') :: setHist rest cid l

/-- Append to a `deque(maxlen=6)`: the oldest reading is evicted once
the window holds six. -/
def dequeAppend6 (d : List Int) (x : Int) : List Int :=
  let d' := d ++ [x]
  d'.drop (d'.length - 6)

structure DetectorState where
  last_rates : List (String × List Int)
  db : DbState
  published : List AnomalyEvent
deriving DecidableEq, Repr

/-- Per-message body of the detector loop: parse (malformed messages
are committed and skipped), evaluate the rules against the customer's
history, unconditionally append the reading to the rolling history,
then — only if an anomaly fired — insert it, publish it, and commit the
offset unless the persist/publish block raised.  The returned flag says
whether the source offset was committed. -/
def detectorStep (cfg : Settings) (st : DetectorState) (m : DetectorMsg) :
    DetectorState × Bool :=
  match m.raw with
  | RawValue.undecodable => (st, true)
  | RawValue.obj j =>
    match model_validate m.fresh_uuid m.now_ts j with
    | Except.error _ => (st, true)
    | Except.ok event =>
      let history := lookupHist st.last_rates event.customer_id
      let anomaly := AnomalyRules.evaluate cfg event history
      let st' := { st with
        last_rates := setHist st.last_rates event.customer_id
          (dequeAppend6 history event.heart_rate) }
      match anomaly with
      | none => (st', true)
      | some a =>
        match m.persist with
        | AnomalyPersist.insertFails => (st', false)
        | AnomalyPersist.publishFails =>
          ({ st' with db := { st'.db with
              anomalies := insert_anomaly st'.db.anomalies a } }, false)
        | AnomalyPersist.allOk =>
          ({ st' with
              db := { st'.db with
                anomalies := insert_anomaly st'.db.anomalies a },
              published := st'.published ++ [a] }, true)

/-! ## Sample values

Concrete fixtures used to instantiate the universally quantified
theorems below at explicit inputs. -/

def sampleTs : Timestamp := ⟨2026, 2, 22, 9, 7, 9, 0⟩

def sampleEvent72 : HeartbeatEvent :=
  { event_id := 3, customer_id := "cust_00001", timestamp := sampleTs,
    heart_rate := 72 }

def sampleEvent100 : HeartbeatEvent :=
  { event_id := 7, customer_id := "cust_00001", timestamp := sampleTs,
    heart_rate := 100 }

def sampleEvent70Defaulted : HeartbeatEvent :=
  { event_id := 0, customer_id := "cust_00001", timestamp := sampleTs,
    heart_rate := 70 }

def emptyDb : DbState :=
  { heartbeat_events := [], ingest_checkpoint := [], anomalies := [] }

def sampleEvent45 : HeartbeatEvent :=
  { event_id := 5, customer_id := "cust_00001", timestamp := sampleTs,
    heart_rate := 45 }

def emptyDetector : DetectorState :=
  { last_rates := [], db := emptyDb, published := [] }

def initLoopState : IngestLoopState :=
  { db := emptyDb, committed := [], storeCommitted := [] }

def badIngestMsg : KMsg × IngestEnv :=
  ({ raw := RawValue.undecodable, topic := "events.raw.v1", partition := 0,
     offset := 0 },
   { fresh_uuid := 0, now_ts := sampleTs, store := StoreOutcome.ok,
     clock := 0 })

def goodIngestMsg : KMsg × IngestEnv :=
  ({ raw := RawValue.obj sampleEvent72.serialize, topic := "events.raw.v1",
     partition := 0, offset := 0 },
   { fresh_uuid := 0, now_ts := sampleTs, store := StoreOutcome.ok,
     clock := 0 })

/-! ## Theorems -/

/-- C1: `AnomalyRules.evaluate` on an event and a history of prior
readings (most recent last) returns a LOW_HEART_RATE anomaly (severity
high, details threshold and measured) when the rate is at or below the
low threshold; otherwise a HIGH_HEART_RATE anomaly (severity high,
details threshold and measured) when the rate is at or above the high
threshold; otherwise a SPIKE anomaly (severity medium, details delta,
threshold, previous and measured) when the history is non-empty and the
absolute delta from the most recent reading — not an average, and
downward jumps fire too — is at least the spike delta; otherwise
`none`.  The `Option` result emits at most one anomaly, typed by the
highest-priority matching rule, and with empty history SPIKE cannot
fire while rules 1 and 2 still apply (they do not consult the
history). -/
theorem anomaly_rules_evaluate_spec (cfg : Settings) (e : HeartbeatEvent)
    (h : List Int) :
    (e.heart_rate ≤ cfg.anomaly_low_threshold →
      AnomalyRules.evaluate cfg e h = some
        { event_id := e.event_id, customer_id := e.customer_id,
          timestamp := e.timestamp, heart_rate := e.heart_rate,
          anomaly_type := "LOW_HEART_RATE", severity := "high",
          details := [("threshold", cfg.anomaly_low_threshold),
                      ("measured", e.heart_rate)] }) ∧
    (cfg.anomaly_low_threshold < e.heart_rate →
      cfg.anomaly_high_threshold ≤ e.heart_rate →
      AnomalyRules.evaluate cfg e h = some
        { event_id := e.event_id, customer_id := e.customer_id,
          timestamp := e.timestamp, heart_rate := e.heart_rate,
          anomaly_type := "HIGH_HEART_RATE", severity := "high",
          details := [("threshold", cfg.anomaly_high_threshold),
                      ("measured", e.heart_rate)] }) ∧
    (∀ hs prev, h = hs ++ [prev] →
      cfg.anomaly_low_threshold < e.heart_rate →
      e.heart_rate < cfg.anomaly_high_threshold →
      cfg.anomaly_spike_delta ≤ |e.heart_rate - prev| →
      AnomalyRules.evaluate cfg e h = some
        { event_id := e.event_id, customer_id := e.customer_id,
          timestamp := e.timestamp, heart_rate := e.heart_rate,
          anomaly_type := "SPIKE", severity := "medium",
          details := [("delta", |e.heart_rate - prev|),
                      ("threshold", cfg.anomaly_spike_delta),
                      ("previous", prev), ("measured", e.heart_rate)] }) ∧
    (∀ hs prev, h = hs ++ [prev] →
      cfg.anomaly_low_threshold < e.heart_rate →
      e.heart_rate < cfg.anomaly_high_threshold →
      |e.heart_rate - prev| < cfg.anomaly_spike_delta →
      AnomalyRules.evaluate cfg e h = none) ∧
    (h = [] → cfg.anomaly_low_threshold < e.heart_rate →
      e.heart_rate < cfg.anomaly_high_threshold →
      AnomalyRules.evaluate cfg e h = none) := by
  refine ⟨?_, ?_, ?_, ?_, ?_⟩
  · intro hlow
    simp [AnomalyRules.evaluate, hlow]
  · intro hlow hhigh
    simp [AnomalyRules.evaluate, not_le.mpr hlow, hhigh, ge_iff_le]
  · intro hs prev hdecomp hlow hhigh hdelta
    subst hdecomp
    simp [AnomalyRules.evaluate, not_le.mpr hlow, not_le.mpr hhigh,
      List.getLast?_concat, ge_iff_le, hdelta]
  · intro hs prev hdecomp hlow hhigh hdelta
    subst hdecomp
    simp [AnomalyRules.evaluate, not_le.mpr hlow, not_le.mpr hhigh,
      List.getLast?_concat, ge_iff_le, not_le.mpr hdelta]
  · intro hnil hlow hhigh
    subst hnil
    simp [AnomalyRules.evaluate, not_le.mpr hlow, not_le.mpr hhigh]

/-- Witness for C1: scenario F of the specification — history
`[80, 75, 60]`, reading 100 at the default thresholds fires SPIKE with
previous 60, delta 40. -/
theorem anomaly_rules_evaluate_spec_witness :
    AnomalyRules.evaluate settings
      { event_id := 7, customer_id := "cust_00001",
        timestamp := ⟨2026, 2, 22, 9, 7, 9, 0⟩, heart_rate := 100 }
      [80, 75, 60] = some
      { event_id := 7, customer_id := "cust_00001",
        timestamp := ⟨2026, 2, 22, 9, 7, 9, 0⟩, heart_rate := 100,
        anomaly_type := "SPIKE", severity := "medium",
        details := [("delta", 40), ("threshold", 30), ("previous", 60),
                    ("measured", 100)] } := by
  have h := (anomaly_rules_evaluate_spec settings
    { event_id := 7, customer_id := "cust_00001",
      timestamp := ⟨2026, 2, 22, 9, 7, 9, 0⟩, heart_rate := 100 }
    [80, 75, 60]).2.2.1 [80, 75] 60 rfl (by decide) (by decide) (by decide)
  simpa using h

/-- C3 counterexample: when every attempt fails with an
`OperationalError`, the retry envelope performs the sleeps
500 ms, 1 s, 2 s, 4 s — four sleeps between the five attempts — not the
claimed five sleeps 0.5, 1, 2, 4 and 8 seconds: the doubled 8-second
delay is computed but never slept, because the fifth failure is
re-raised immediately; the cumulative wait is 7.5 s, not 15.5 s. -/
theorem retry_delays_counterexample :
    (withRetry (fun _ => AttemptResult.operr "connection refused") :
        Option (Except String Unit) × List Nat).2 = [500, 1000, 2000, 4000] ∧
      (withRetry (fun _ => AttemptResult.operr "connection refused") :
        Option (Except String Unit) × List Nat).2 ≠
        [500, 1000, 2000, 4000, 8000] ∧
      ((withRetry (fun _ => AttemptResult.operr "connection refused") :
        Option (Except String Unit) × List Nat).2.foldl (· + ·) 0 = 7500 ∧
        (7500 : Nat) ≠ 15500) := by
  refine ⟨rfl, by decide, rfl, by decide⟩

/-- C3 (amended): every store write is wrapped in the retry envelope;
a transient-classified (operational) failure on every attempt causes
the operation to be attempted exactly 5 times, with the four sleeps
0.5, 1, 2 and 4 seconds (exponential backoff starting at 0.5 s,
doubling each attempt, cumulative 7.5 s) between attempts, before the
final failure is re-raised as-is; a success on any attempt returns that
attempt's result, after the sleeps for the earlier failed attempts
only. -/
theorem retry_envelope_amended {α : Type} (behavior : Nat → AttemptResult α)
    (errs : Nat → String) (vals : Nat → α) :
    ((∀ i, 1 ≤ i → i ≤ 5 → behavior i = AttemptResult.operr (errs i)) →
      withRetry behavior =
        (some (Except.error (errs 5)), [500, 1000, 2000, 4000])) ∧
    (∀ k, 1 ≤ k → k ≤ 5 → behavior k = AttemptResult.ok (vals k) →
      (∀ i, 1 ≤ i → i < k → behavior i = AttemptResult.operr (errs i)) →
      withRetry behavior =
        (some (Except.ok (vals k)),
          List.take (k - 1) [500, 1000, 2000, 4000])) := by
  constructor
  · intro hfail
    have h1 := hfail 1 (by omega) (by omega)
    have h2 := hfail 2 (by omega) (by omega)
    have h3 := hfail 3 (by omega) (by omega)
    have h4 := hfail 4 (by omega) (by omega)
    have h5 := hfail 5 (by omega) (by omega)
    simp [withRetry, withRetryAux, MAX_RETRIES, BASE_BACKOFF_MS,
      h1, h2, h3, h4, h5]
  · intro k hk1 hk5 hok hfail
    interval_cases k
    · simp [withRetry, withRetryAux, MAX_RETRIES, BASE_BACKOFF_MS, hok]
    · have h1 := hfail 1 (by omega) (by omega)
      simp [withRetry, withRetryAux, MAX_RETRIES, BASE_BACKOFF_MS, h1, hok]
    · have h1 := hfail 1 (by omega) (by omega)
      have h2 := hfail 2 (by omega) (by omega)
      simp [withRetry, withRetryAux, MAX_RETRIES, BASE_BACKOFF_MS,
        h1, h2, hok]
    · have h1 := hfail 1 (by omega) (by omega)
      have h2 := hfail 2 (by omega) (by omega)
      have h3 := hfail 3 (by omega) (by omega)
      simp [withRetry, withRetryAux, MAX_RETRIES, BASE_BACKOFF_MS,
        h1, h2, h3, hok]
    · have h1 := hfail 1 (by omega) (by omega)
      have h2 := hfail 2 (by omega) (by omega)
      have h3 := hfail 3 (by omega) (by omega)
      have h4 := hfail 4 (by omega) (by omega)
      simp [withRetry, withRetryAux, MAX_RETRIES, BASE_BACKOFF_MS,
        h1, h2, h3, h4, hok]

/-- Witness for the amended C3: two transient failures then a success
on the third attempt return that attempt's result after sleeping
0.5 s and 1 s. -/
theorem retry_envelope_amended_witness :
    withRetry (fun i => if i < 3 then AttemptResult.operr "server closed the connection unexpectedly" else AttemptResult.ok (42 : Nat)) =
      (some (Except.ok 42), [500, 1000]) := by
  have h := (retry_envelope_amended
    (fun i => if i < 3 then AttemptResult.operr "server closed the connection unexpectedly" else AttemptResult.ok (42 : Nat))
    (fun _ => "server closed the connection unexpectedly")
    (fun _ => 42)).2 3 (by omega) (by omega) (by decide)
    (by intro i h1 h2; interval_cases i <;> decide)
  simpa using h

theorem hbRow_key (e : HeartbeatEvent) (topic : String) (partition offset : Nat) :
    (hbRow e topic partition offset).key = (e.customer_id, uuidStr e.event_id) :=
  rfl

theorem countHbKey_of_not_hasHbKey {tbl : List HeartbeatRow}
    {k : String × String} (h : hasHbKey tbl k = false) :
    countHbKey tbl k = 0 := by
  rw [countHbKey, List.length_eq_zero, List.filter_eq_nil_iff]
  intro r hr
  simp only [hasHbKey, List.any_eq_false, decide_eq_true_eq] at h
  simpa using h r hr

theorem countHbKey_append (tbl : List HeartbeatRow) (r : HeartbeatRow)
    (k : String × String) :
    countHbKey (tbl ++ [r]) k =
      countHbKey tbl k + (if r.key = k then 1 else 0) := by
  by_cases hk : r.key = k <;>
    simp [countHbKey, List.filter_append, hk]

theorem insert_heartbeat_conflict {tbl : List HeartbeatRow}
    {e : HeartbeatEvent} (topic : String) (partition offset : Nat)
    (h : hasHbKey tbl (e.customer_id, uuidStr e.event_id) = true) :
    insert_heartbeat tbl e topic partition offset = (tbl, 0) := by
  simp [insert_heartbeat, h]

theorem hasHbKey_insert_self (tbl : List HeartbeatRow) (e : HeartbeatEvent)
    (topic : String) (partition offset : Nat) :
    hasHbKey (insert_heartbeat tbl e topic partition offset).1
      (e.customer_id, uuidStr e.event_id) = true := by
  by_cases h : hasHbKey tbl (e.customer_id, uuidStr e.event_id)
  · simp [insert_heartbeat, h]
  · simp only [insert_heartbeat, h, Bool.false_eq_true, if_false]
    simp [hasHbKey, hbRow_key]

/-- Replaying the same event any number of times (with arbitrary
provenance) leaves a table that already holds its key unchanged. -/
theorem replay_insert_id {tbl : List HeartbeatRow} {e : HeartbeatEvent}
    (h : hasHbKey tbl (e.customer_id, uuidStr e.event_id) = true)
    (ds : List (String × Nat × Nat)) :
    ds.foldl (fun acc d => (insert_heartbeat acc e d.1 d.2.1 d.2.2).1) tbl
      = tbl := by
  induction ds with
  | nil => rfl
  | cons d ds ih =>
    simp only [List.foldl_cons, insert_heartbeat_conflict d.1 d.2.1 d.2.2 h]
    exact ih

/-- C4: `insert_heartbeat` is idempotent on `(customer_id, event_id)`:
with the key absent, the first insert affects 1 row, a second insert of
the same key affects 0 rows and leaves the table — including the stored
row — unchanged, and however many further times the message is
redelivered (with any provenance), exactly one row for that key exists
in `heartbeat_events`. -/
theorem insert_heartbeat_idempotent_spec (tbl : List HeartbeatRow)
    (e : HeartbeatEvent) (topic : String) (partition offset : Nat)
    (h : hasHbKey tbl (e.customer_id, uuidStr e.event_id) = false) :
    (insert_heartbeat tbl e topic partition offset).2 = 1 ∧
    countHbKey (insert_heartbeat tbl e topic partition offset).1
      (e.customer_id, uuidStr e.event_id) = 1 ∧
    (∀ topic' partition' offset',
      insert_heartbeat (insert_heartbeat tbl e topic partition offset).1
          e topic' partition' offset' =
        ((insert_heartbeat tbl e topic partition offset).1, 0)) ∧
    (∀ ds : List (String × Nat × Nat),
      countHbKey
        (ds.foldl (fun acc d => (insert_heartbeat acc e d.1 d.2.1 d.2.2).1)
          (insert_heartbeat tbl e topic partition offset).1)
        (e.customer_id, uuidStr e.event_id) = 1) := by
  have hfst : (insert_heartbeat tbl e topic partition offset).1 =
      tbl ++ [hbRow e topic partition offset] := by
    simp [insert_heartbeat, h]
  have hcount : countHbKey (insert_heartbeat tbl e topic partition offset).1
      (e.customer_id, uuidStr e.event_id) = 1 := by
    rw [hfst, countHbKey_append, countHbKey_of_not_hasHbKey h, hbRow_key,
      if_pos rfl]
  have hmem := hasHbKey_insert_self tbl e topic partition offset
  refine ⟨by simp [insert_heartbeat, h], hcount, ?_, ?_⟩
  · intro topic' partition' offset'
    exact insert_heartbeat_conflict topic' partition' offset' hmem
  · intro ds
    rw [replay_insert_id hmem ds]
    exact hcount

/-- Witness for C4 at a concrete event and an empty table. -/
theorem insert_heartbeat_idempotent_spec_witness :
    ((insert_heartbeat [] sampleEvent72 "events.raw.v1" 0 11).2 = 1) ∧
      countHbKey
        (([("events.raw.v1", 0, 11), ("events.raw.v1", 0, 11)] :
            List (String × Nat × Nat)).foldl
          (fun acc d => (insert_heartbeat acc sampleEvent72 d.1 d.2.1 d.2.2).1)
          (insert_heartbeat [] sampleEvent72 "events.raw.v1" 0 11).1)
        ("cust_00001", uuidStr 3) = 1 := by
  have h := insert_heartbeat_idempotent_spec [] sampleEvent72
    "events.raw.v1" 0 11 rfl
  exact ⟨h.1, h.2.2.2 [("events.raw.v1", 0, 11), ("events.raw.v1", 0, 11)]⟩

theorem heart_rate_error_ne (hr : Int) :
    ("heart_rate " ++ toString hr ++
        " is outside hard physiological bounds [0, 250]") ≠
      "customer_id cannot be empty or whitespace" := by
  intro h
  have h' : ("heart_rate ").data ++
      (toString hr ++ " is outside hard physiological bounds [0, 250]").data =
      ("customer_id cannot be empty or whitespace").data := by
    rw [← String.data_append, ← String.append_assoc, h]
  have h2 : ('h' :: ("eart_rate ").data) ++
      (toString hr ++ " is outside hard physiological bounds [0, 250]").data =
      'c' :: ("ustomer_id cannot be empty or whitespace").data := h'
  simp at h2

/-- Closed form of `HeartbeatEvent.construct`. -/
theorem construct_eq (eid : Nat) (cid : String) (ts : Timestamp) (hr : Int) :
    HeartbeatEvent.construct eid cid ts hr =
      if (pyStrip cid).isEmpty then
        Except.error "customer_id cannot be empty or whitespace"
      else if 0 ≤ hr ∧ hr ≤ 250 then
        Except.ok ⟨eid, pyStrip cid, ts, hr⟩
      else
        Except.error ("heart_rate " ++ toString hr ++
          " is outside hard physiological bounds [0, 250]") := by
  rw [HeartbeatEvent.construct, validate_customer_id,
    validate_heart_rate_hard_bounds]
  by_cases h1 : (pyStrip cid).isEmpty <;>
    by_cases h2 : 0 ≤ hr ∧ hr ≤ 250 <;>
      simp [h1, h2, Bind.bind, Except.bind, Functor.map, Except.map, pure,
        Except.pure]

/-- C6: a successfully constructed `HeartbeatEvent` satisfies
`0 ≤ heart_rate ≤ 250` and carries the input `customer_id` trimmed of
surrounding whitespace and non-empty; a blank-after-trim `customer_id`
fails construction with the customer-id validation error, an
out-of-bounds heart rate fails it with the heart-rate validation error,
and the two errors are distinct human-readable messages. -/
theorem heartbeat_construct_spec (eid : Nat) (cid : String) (ts : Timestamp)
    (hr : Int) :
    (∀ e, HeartbeatEvent.construct eid cid ts hr = Except.ok e →
      0 ≤ e.heart_rate ∧ e.heart_rate ≤ 250 ∧ e.customer_id = pyStrip cid ∧
        e.customer_id ≠ "" ∧ e.event_id = eid ∧ e.timestamp = ts ∧
        e.heart_rate = hr) ∧
    (pyStrip cid = "" →
      HeartbeatEvent.construct eid cid ts hr =
        Except.error "customer_id cannot be empty or whitespace") ∧
    (pyStrip cid ≠ "" → ¬(0 ≤ hr ∧ hr ≤ 250) →
      HeartbeatEvent.construct eid cid ts hr =
          Except.error ("heart_rate " ++ toString hr ++
            " is outside hard physiological bounds [0, 250]") ∧
        ("heart_rate " ++ toString hr ++
            " is outside hard physiological bounds [0, 250]") ≠
          "customer_id cannot be empty or whitespace") := by
  refine ⟨?_, ?_, ?_⟩
  · intro e he
    rw [construct_eq] at he
    by_cases hempty : (pyStrip cid).isEmpty
    · simp [hempty] at he
    · by_cases hhr : 0 ≤ hr ∧ hr ≤ 250
      · rw [if_neg (by simpa using hempty), if_pos hhr,
          Except.ok.injEq] at he
        cases he
        refine ⟨hhr.1, hhr.2, rfl, ?_, rfl, rfl, rfl⟩
        intro hs
        have hs' : pyStrip cid = "" := hs
        rw [← String.isEmpty_iff] at hs'
        exact hempty hs'
      · rw [if_neg (by simpa using hempty), if_neg hhr] at he
        exact absurd he (by simp)
  · intro hblank
    rw [construct_eq, if_pos ((String.isEmpty_iff _).mpr hblank)]
  · intro hne hhr
    refine ⟨?_, heart_rate_error_ne hr⟩
    have hne' : ¬(pyStrip cid).isEmpty = true := by
      rw [(String.isEmpty_iff _)]
      exact hne
    rw [construct_eq, if_neg (by simpa using hne'), if_neg hhr]

/-- Witness for C6: a padded identifier is stored trimmed and the hard
bounds hold; an out-of-range rate is rejected with the heart-rate
message. -/
theorem heartbeat_construct_spec_witness :
    (0 ≤ (72 : Int) ∧ (72 : Int) ≤ 250 ∧
      ("cust_00001" : String) = pyStrip "  cust_00001 " ∧
      ("cust_00001" : String) ≠ "" ∧ (3 : Nat) = 3 ∧ sampleTs = sampleTs ∧
      (72 : Int) = 72) ∧
    HeartbeatEvent.construct 3 "cust_00001" sampleTs 300 =
      Except.error ("heart_rate " ++ toString (300 : Int) ++
        " is outside hard physiological bounds [0, 250]") := by
  constructor
  · exact (heartbeat_construct_spec 3 "  cust_00001 " sampleTs 72).1
      { event_id := 3, customer_id := "cust_00001",
        timestamp := sampleTs, heart_rate := 72 } rfl
  · exact ((heartbeat_construct_spec 3 "cust_00001" sampleTs 300).2.2
      (by decide) (by decide)).1

theorem except_ok_bind {α β : Type} (x : α) (f : α → Except String β) :
    (Except.ok x >>= f) = f x :=
  rfl

theorem jlookup_append_of_not_key {extra : JObj} {k : String}
    (h : ∀ p ∈ extra, p.1 ≠ k) (j : JObj) :
    jlookup (extra ++ j) k = jlookup j k := by
  induction extra with
  | nil => rfl
  | cons p rest ih =>
    rw [List.cons_append, jlookup, if_neg (h p (List.mem_cons_self p rest))]
    exact ih (fun q hq => h q (List.mem_cons_of_mem p hq))

theorem jlookup_serialize_event_id (e : HeartbeatEvent) :
    jlookup e.serialize "event_id" = some (JVal.jstr (uuidStr e.event_id)) :=
  rfl

theorem jlookup_serialize_customer_id (e : HeartbeatEvent) :
    jlookup e.serialize "customer_id" = some (JVal.jstr e.customer_id) := by
  rw [HeartbeatEvent.serialize, jlookup, if_neg (by decide), jlookup,
    if_pos rfl]

theorem jlookup_serialize_timestamp (e : HeartbeatEvent) :
    jlookup e.serialize "timestamp" =
      some (JVal.jstr (tsStr e.timestamp)) := by
  rw [HeartbeatEvent.serialize, jlookup, if_neg (by decide), jlookup,
    if_neg (by decide), jlookup, if_pos rfl]

theorem jlookup_serialize_heart_rate (e : HeartbeatEvent) :
    jlookup e.serialize "heart_rate" = some (JVal.jint e.heart_rate) := by
  rw [HeartbeatEvent.serialize, jlookup, if_neg (by decide), jlookup,
    if_neg (by decide), jlookup, if_neg (by decide), jlookup, if_pos rfl]

theorem validate_customer_id_of_valid {s : String} (h1 : pyStrip s = s)
    (h2 : s ≠ "") : validate_customer_id s = Except.ok s := by
  have hie : s.isEmpty = false := by
    rw [Bool.eq_false_iff]
    intro hc
    exact h2 ((String.isEmpty_iff _).mp hc)
  rw [validate_customer_id]
  simp only [h1, hie, Bool.false_eq_true, if_false]

/-- C7: deserializing the serialized textual form of a valid
`HeartbeatEvent` (keys `event_id`, `customer_id`, `timestamp` as
RFC-3339 UTC, `heart_rate`) recovers an event equal to the original on
all value fields, with `event_id` preserved bitwise; unknown keys
present on the input side are ignored. -/
theorem serialize_roundtrip_spec (e : HeartbeatEvent) (hv : e.Valid)
    (fresh : Nat) (now : Timestamp) (extra : JObj)
    (hextra : ∀ p ∈ extra,
      p.1 ∉ (["event_id", "customer_id", "timestamp", "heart_rate"] :
        List String)) :
    model_validate fresh now e.serialize = Except.ok e ∧
    model_validate fresh now (extra ++ e.serialize) = Except.ok e := by
  obtain ⟨hu, hts, hstrip, hne, hlo, hhi⟩ := hv
  have main : ∀ j : JObj,
      jlookup j "event_id" = some (JVal.jstr (uuidStr e.event_id)) →
      jlookup j "customer_id" = some (JVal.jstr e.customer_id) →
      jlookup j "timestamp" = some (JVal.jstr (tsStr e.timestamp)) →
      jlookup j "heart_rate" = some (JVal.jint e.heart_rate) →
      model_validate fresh now j = Except.ok e := by
    intro j l1 l2 l3 l4
    have huuid : uuidParse (uuidStr e.event_id).data = some e.event_id :=
      uuidParse_uuidRender hu
    have htsp : tsParse (tsStr e.timestamp).data = some e.timestamp :=
      tsParse_tsRender hts
    have hcid : validate_customer_id e.customer_id =
        Except.ok e.customer_id := validate_customer_id_of_valid hstrip hne
    have hhr : validate_heart_rate_hard_bounds e.heart_rate =
        Except.ok e.heart_rate := by
      rw [validate_heart_rate_hard_bounds, if_pos ⟨hlo, hhi⟩]
    have hpe : parse_event_id fresh j = Except.ok e.event_id := by
      simp only [parse_event_id, l1, huuid]
    have hpc : parse_customer_id j = Except.ok e.customer_id := by
      simp only [parse_customer_id, l2]
    have hpt : parse_timestamp now j = Except.ok e.timestamp := by
      simp only [parse_timestamp, l3, htsp]
    have hph : parse_heart_rate j = Except.ok e.heart_rate := by
      simp only [parse_heart_rate, l4]
    simp only [model_validate, hpe, hpc, hpt, hph, except_ok_bind,
      hcid, hhr]
    rfl
  have hkeys : ∀ k : String,
      k ∈ (["event_id", "customer_id", "timestamp", "heart_rate"] :
        List String) →
      jlookup (extra ++ e.serialize) k = jlookup e.serialize k := by
    intro k hk
    exact jlookup_append_of_not_key
      (fun p hp => fun hpk => hextra p hp (hpk ▸ hk)) _
  refine ⟨?_, ?_⟩
  · exact main e.serialize (jlookup_serialize_event_id e)
      (jlookup_serialize_customer_id e) (jlookup_serialize_timestamp e)
      (jlookup_serialize_heart_rate e)
  · refine main (extra ++ e.serialize) ?_ ?_ ?_ ?_
    · rw [hkeys "event_id" (by decide)]
      exact jlookup_serialize_event_id e
    · rw [hkeys "customer_id" (by decide)]
      exact jlookup_serialize_customer_id e
    · rw [hkeys "timestamp" (by decide)]
      exact jlookup_serialize_timestamp e
    · rw [hkeys "heart_rate" (by decide)]
      exact jlookup_serialize_heart_rate e

/-- Witness for C7: a concrete event round-trips, also with an unknown
key prepended. -/
theorem serialize_roundtrip_spec_witness :
    model_validate 0 ⟨2000, 1, 1, 0, 0, 0, 0⟩ sampleEvent72.serialize =
        Except.ok sampleEvent72 ∧
      model_validate 0 ⟨2000, 1, 1, 0, 0, 0, 0⟩
          ([("source", JVal.jstr "sim")] ++ sampleEvent72.serialize) =
        Except.ok sampleEvent72 :=
  serialize_roundtrip_spec sampleEvent72 (by decide) 0 ⟨2000, 1, 1, 0, 0, 0, 0⟩
    [("source", JVal.jstr "sim")] (by decide)

theorem except_error_bind {α β : Type} (msg : String)
    (f : α → Except String β) :
    (Except.error msg >>= f) = (Except.error msg : Except String β) :=
  rfl

theorem except_bind_eq_ok {α β : Type} {x : Except String α}
    {f : α → Except String β} {b : β} :
    (x >>= f) = Except.ok b ↔ ∃ a, x = Except.ok a ∧ f a = Except.ok b := by
  cases x with
  | error m =>
    rw [except_error_bind]
    constructor
    · intro hc
      cases hc
    · rintro ⟨a, ha, _⟩
      cases ha
  | ok a =>
    rw [except_ok_bind]
    constructor
    · intro hfa
      exact ⟨a, rfl, hfa⟩
    · rintro ⟨a', ha', hfa⟩
      cases ha'
      exact hfa

/-- C8 counterexample: an input object with `customer_id` and
`heart_rate` but no `event_id` (and no `timestamp`) is deserialized
successfully — pydantic fills both fields from their default factories
(`uuid4()`, `datetime.now(timezone.utc)`, here the explicit `fresh`
and `now` environment parameters) instead of failing, so `event_id`
and `timestamp` are not required keys. -/
theorem model_validate_missing_key_counterexample :
    jlookup [("customer_id", JVal.jstr "cust_00001"),
        ("heart_rate", JVal.jint 70)] "event_id" = none ∧
      jlookup [("customer_id", JVal.jstr "cust_00001"),
        ("heart_rate", JVal.jint 70)] "timestamp" = none ∧
      model_validate 0 sampleTs
          [("customer_id", JVal.jstr "cust_00001"),
           ("heart_rate", JVal.jint 70)] =
        Except.ok sampleEvent70Defaulted :=
  ⟨rfl, rfl, rfl⟩

/-- C8 (amended): deserialization of a `HeartbeatEvent` fails with a
validation error whenever `customer_id` or `heart_rate` is missing from
the input object — the keys with no default; a missing `event_id` or
`timestamp` does not fail: the field is filled from its default
factory (a fresh UUID, respectively the current UTC time). -/
theorem model_validate_required_keys (fresh : Nat) (now : Timestamp)
    (j : JObj) :
    (jlookup j "customer_id" = none →
      ∀ e, model_validate fresh now j ≠ Except.ok e) ∧
    (jlookup j "heart_rate" = none →
      ∀ e, model_validate fresh now j ≠ Except.ok e) ∧
    (jlookup j "event_id" = none →
      ∀ e, model_validate fresh now j = Except.ok e → e.event_id = fresh) ∧
    (jlookup j "timestamp" = none →
      ∀ e, model_validate fresh now j = Except.ok e → e.timestamp = now) := by
  refine ⟨?_, ?_, ?_, ?_⟩
  · intro h e hok
    rw [model_validate] at hok
    obtain ⟨eid, _, hok⟩ := except_bind_eq_ok.mp hok
    obtain ⟨cidRaw, h2, _⟩ := except_bind_eq_ok.mp hok
    rw [parse_customer_id, h] at h2
    cases h2
  · intro h e hok
    rw [model_validate] at hok
    obtain ⟨eid, _, hok⟩ := except_bind_eq_ok.mp hok
    obtain ⟨cidRaw, _, hok⟩ := except_bind_eq_ok.mp hok
    obtain ⟨cid, _, hok⟩ := except_bind_eq_ok.mp hok
    obtain ⟨ts, _, hok⟩ := except_bind_eq_ok.mp hok
    obtain ⟨hrRaw, h5, _⟩ := except_bind_eq_ok.mp hok
    rw [parse_heart_rate, h] at h5
    cases h5
  · intro h e hok
    rw [model_validate] at hok
    obtain ⟨eid, h1, hok⟩ := except_bind_eq_ok.mp hok
    rw [parse_event_id, h] at h1
    obtain ⟨cidRaw, _, hok⟩ := except_bind_eq_ok.mp hok
    obtain ⟨cid, _, hok⟩ := except_bind_eq_ok.mp hok
    obtain ⟨ts, _, hok⟩ := except_bind_eq_ok.mp hok
    obtain ⟨hrRaw, _, hok⟩ := except_bind_eq_ok.mp hok
    obtain ⟨hr, _, hok⟩ := except_bind_eq_ok.mp hok
    cases h1
    cases hok
    rfl
  · intro h e hok
    rw [model_validate] at hok
    obtain ⟨eid, _, hok⟩ := except_bind_eq_ok.mp hok
    obtain ⟨cidRaw, _, hok⟩ := except_bind_eq_ok.mp hok
    obtain ⟨cid, _, hok⟩ := except_bind_eq_ok.mp hok
    obtain ⟨ts, h4, hok⟩ := except_bind_eq_ok.mp hok
    rw [parse_timestamp, h] at h4
    obtain ⟨hrRaw, _, hok⟩ := except_bind_eq_ok.mp hok
    obtain ⟨hr, _, hok⟩ := except_bind_eq_ok.mp hok
    cases h4
    cases hok
    rfl

/-- Witness for the amended C8: with no `customer_id` key
deserialization rejects a concrete input, and a missing `event_id` is
filled with the supplied fresh value. -/
theorem model_validate_required_keys_witness :
    (model_validate 0 sampleTs [("heart_rate", JVal.jint 70)] ≠
        Except.ok sampleEvent72) ∧
      sampleEvent70Defaulted.event_id = 0 := by
  constructor
  · exact (model_validate_required_keys 0 sampleTs
      [("heart_rate", JVal.jint 70)]).1 rfl sampleEvent72
  · exact (model_validate_required_keys 0 sampleTs
      [("customer_id", JVal.jstr "cust_00001"),
       ("heart_rate", JVal.jint 70)]).2.2.1 rfl sampleEvent70Defaulted rfl

/-- C2: for every polled message, the ingest consumer commits the
source offset exactly when processing ends in a successful store write
or in a VALIDATION quarantine publish — covering text not decodable as
the event serialization, event-invariant violations and soft-bounds
violations, all routed to the invalid topic — and does not commit when
processing ends in a PROCESSING quarantine publish to the dlq topic
(store transient failure with exhausted retries, or any other
unexpected fault). -/
theorem ingest_commit_policy_spec (cfg : Settings) (db : DbState)
    (m : KMsg) (env : IngestEnv) :
    ((ingestStep cfg db m env).2.committed = true ↔
      (ingestStep cfg db m env).2.outcome = Outcome.stored ∨
      (ingestStep cfg db m env).2.outcome = Outcome.validationQuarantine) ∧
    (m.raw = RawValue.undecodable →
      (ingestStep cfg db m env).2 =
        { outcome := Outcome.validationQuarantine, committed := true,
          publish := some { topic := cfg.kafka_topic_invalid,
                            error_type := "VALIDATION" } }) ∧
    (∀ j msg, m.raw = RawValue.obj j →
      model_validate env.fresh_uuid env.now_ts j = Except.error msg →
      (ingestStep cfg db m env).2 =
        { outcome := Outcome.validationQuarantine, committed := true,
          publish := some { topic := cfg.kafka_topic_invalid,
                            error_type := "VALIDATION" } }) ∧
    (∀ j e, m.raw = RawValue.obj j →
      model_validate env.fresh_uuid env.now_ts j = Except.ok e →
      ¬(cfg.heart_rate_min ≤ e.heart_rate ∧
        e.heart_rate ≤ cfg.heart_rate_max) →
      (ingestStep cfg db m env).2 =
        { outcome := Outcome.validationQuarantine, committed := true,
          publish := some { topic := cfg.kafka_topic_invalid,
                            error_type := "VALIDATION" } }) ∧
    (∀ j e, m.raw = RawValue.obj j →
      model_validate env.fresh_uuid env.now_ts j = Except.ok e →
      (cfg.heart_rate_min ≤ e.heart_rate ∧
        e.heart_rate ≤ cfg.heart_rate_max) →
      env.store = StoreOutcome.ok →
      (ingestStep cfg db m env).2 =
        { outcome := Outcome.stored, committed := true, publish := none }) ∧
    (∀ j e, m.raw = RawValue.obj j →
      model_validate env.fresh_uuid env.now_ts j = Except.ok e →
      (cfg.heart_rate_min ≤ e.heart_rate ∧
        e.heart_rate ≤ cfg.heart_rate_max) →
      env.store ≠ StoreOutcome.ok →
      (ingestStep cfg db m env).2 =
        { outcome := Outcome.processingQuarantine, committed := false,
          publish := some { topic := cfg.kafka_topic_dlq,
                            error_type := "PROCESSING" } }) := by
  refine ⟨?_, ?_, ?_, ?_, ?_, ?_⟩
  · rcases hr : m.raw with _ | j
    · simp [ingestStep, hr]
    · rcases hmv : model_validate env.fresh_uuid env.now_ts j with msg | e
      · simp [ingestStep, hr, hmv]
      · by_cases hb : cfg.heart_rate_min ≤ e.heart_rate ∧
            e.heart_rate ≤ cfg.heart_rate_max
        · rcases hst : env.store
          · simp [ingestStep, hr, hmv, hb, hst]
          · simp [ingestStep, hr, hmv, hb, hst]
          · simp [ingestStep, hr, hmv, hb, hst]
        · simp [ingestStep, hr, hmv, hb]
  · intro hr
    simp [ingestStep, hr]
  · intro j msg hr hmv
    simp [ingestStep, hr, hmv]
  · intro j e hr hmv hb
    simp [ingestStep, hr, hmv, hb]
  · intro j e hr hmv hb hst
    simp [ingestStep, hr, hmv, hb, hst]
  · intro j e hr hmv hb hst
    rcases hsc : env.store
    · exact absurd hsc hst
    · simp [ingestStep, hr, hmv, hb, hsc]
    · simp [ingestStep, hr, hmv, hb, hsc]

/-- Witness for C2: an undecodable message is committed and routed to
the invalid topic; a valid in-bounds message whose store transaction
keeps failing is routed to the dlq topic without a commit. -/
theorem ingest_commit_policy_spec_witness :
    (ingestStep settings emptyDb
        { raw := RawValue.undecodable, topic := "events.raw.v1",
          partition := 0, offset := 0 }
        { fresh_uuid := 0, now_ts := sampleTs,
          store := StoreOutcome.ok, clock := 0 }).2 =
      { outcome := Outcome.validationQuarantine, committed := true,
        publish := some { topic := "events.invalid.v1",
                          error_type := "VALIDATION" } } ∧
    (ingestStep settings emptyDb
        { raw := RawValue.obj sampleEvent72.serialize,
          topic := "events.raw.v1", partition := 0, offset := 0 }
        { fresh_uuid := 0, now_ts := sampleTs,
          store := StoreOutcome.transientExhausted, clock := 0 }).2 =
      { outcome := Outcome.processingQuarantine, committed := false,
        publish := some { topic := "events.dlq.v1",
                          error_type := "PROCESSING" } } := by
  constructor
  · exact (ingest_commit_policy_spec settings emptyDb
      { raw := RawValue.undecodable, topic := "events.raw.v1",
        partition := 0, offset := 0 }
      { fresh_uuid := 0, now_ts := sampleTs, store := StoreOutcome.ok,
        clock := 0 }).2.1 rfl
  · exact (ingest_commit_policy_spec settings emptyDb
      { raw := RawValue.obj sampleEvent72.serialize,
        topic := "events.raw.v1", partition := 0, offset := 0 }
      { fresh_uuid := 0, now_ts := sampleTs,
        store := StoreOutcome.transientExhausted,
        clock := 0 }).2.2.2.2.2 sampleEvent72.serialize sampleEvent72 rfl
      (by rfl) (by decide) (by decide)

/-- C9: in the anomaly consumer, for every message that parses to an
event, the subject's rolling history is updated with the current
reading before the commit decision — unconditionally, whether or not an
anomaly fired and whether or not persistence succeeded; and when an
anomaly fired, the source offset is committed exactly when neither the
anomaly DB insert nor the publish to the anomaly topic raised, so a
persist or publish failure leaves the offset uncommitted (the message
redelivers) with the history already advanced. -/
theorem detector_persist_failure_spec (cfg : Settings) (st : DetectorState)
    (m : DetectorMsg) :
    (∀ j e, m.raw = RawValue.obj j →
      model_validate m.fresh_uuid m.now_ts j = Except.ok e →
      (detectorStep cfg st m).1.last_rates =
        setHist st.last_rates e.customer_id
          (dequeAppend6 (lookupHist st.last_rates e.customer_id)
            e.heart_rate)) ∧
    (∀ j e a, m.raw = RawValue.obj j →
      model_validate m.fresh_uuid m.now_ts j = Except.ok e →
      AnomalyRules.evaluate cfg e (lookupHist st.last_rates e.customer_id) =
        some a →
      m.persist ≠ AnomalyPersist.allOk →
      (detectorStep cfg st m).2 = false) ∧
    (∀ j e a, m.raw = RawValue.obj j →
      model_validate m.fresh_uuid m.now_ts j = Except.ok e →
      AnomalyRules.evaluate cfg e (lookupHist st.last_rates e.customer_id) =
        some a →
      m.persist = AnomalyPersist.allOk →
      (detectorStep cfg st m).2 = true ∧
        (detectorStep cfg st m).1.db.anomalies =
          insert_anomaly st.db.anomalies a ∧
        (detectorStep cfg st m).1.published = st.published ++ [a]) ∧
    (∀ j e, m.raw = RawValue.obj j →
      model_validate m.fresh_uuid m.now_ts j = Except.ok e →
      AnomalyRules.evaluate cfg e (lookupHist st.last_rates e.customer_id) =
        none →
      (detectorStep cfg st m).2 = true ∧ (detectorStep cfg st m).1.db = st.db) := by
  refine ⟨?_, ?_, ?_, ?_⟩
  · intro j e hr hmv
    rcases hev : AnomalyRules.evaluate cfg e
        (lookupHist st.last_rates e.customer_id) with _ | a
    · simp [detectorStep, hr, hmv, hev]
    · rcases hp : m.persist
      · simp [detectorStep, hr, hmv, hev, hp]
      · simp [detectorStep, hr, hmv, hev, hp]
      · simp [detectorStep, hr, hmv, hev, hp]
  · intro j e a hr hmv hev hp
    rcases hpc : m.persist
    · simp [detectorStep, hr, hmv, hev, hpc]
    · simp [detectorStep, hr, hmv, hev, hpc]
    · exact absurd hpc hp
  · intro j e a hr hmv hev hp
    refine ⟨?_, ?_, ?_⟩ <;> simp [detectorStep, hr, hmv, hev, hp]
  · intro j e hr hmv hev
    constructor <;> simp [detectorStep, hr, hmv, hev]

/-- Witness for C9: a LOW reading whose anomaly insert fails leaves the
offset uncommitted while the rolling history already holds the
reading. -/
theorem detector_persist_failure_spec_witness :
    ((detectorStep settings emptyDetector
        { raw := RawValue.obj sampleEvent45.serialize, fresh_uuid := 0,
          now_ts := sampleTs, persist := AnomalyPersist.insertFails }).2 =
      false) ∧
    (detectorStep settings emptyDetector
        { raw := RawValue.obj sampleEvent45.serialize, fresh_uuid := 0,
          now_ts := sampleTs,
          persist := AnomalyPersist.insertFails }).1.last_rates =
      [("cust_00001", [45])] := by
  constructor
  · exact (detector_persist_failure_spec settings emptyDetector
      { raw := RawValue.obj sampleEvent45.serialize, fresh_uuid := 0,
        now_ts := sampleTs, persist := AnomalyPersist.insertFails }).2.1
      sampleEvent45.serialize sampleEvent45
      { event_id := 5, customer_id := "cust_00001", timestamp := sampleTs,
        heart_rate := 45, anomaly_type := "LOW_HEART_RATE",
        severity := "high",
        details := [("threshold", 50), ("measured", 45)] }
      rfl (by rfl) (by rfl) (by decide)
  · have h := (detector_persist_failure_spec settings emptyDetector
      { raw := RawValue.obj sampleEvent45.serialize, fresh_uuid := 0,
        now_ts := sampleTs, persist := AnomalyPersist.insertFails }).1
      sampleEvent45.serialize sampleEvent45 rfl (by rfl)
    simpa using h

/-- C10: a message whose payload is not decodable as a
`HeartbeatEvent` — JSON decode error or validation error — is silently
skipped by the anomaly consumer: the source offset is committed and all
state (rolling histories, anomalies table, anomaly topic) is left
unchanged. -/
theorem detector_skips_malformed_spec (cfg : Settings) (st : DetectorState)
    (m : DetectorMsg) :
    (m.raw = RawValue.undecodable → detectorStep cfg st m = (st, true)) ∧
    (∀ j msg, m.raw = RawValue.obj j →
      model_validate m.fresh_uuid m.now_ts j = Except.error msg →
      detectorStep cfg st m = (st, true)) := by
  constructor
  · intro hr
    simp [detectorStep, hr]
  · intro j msg hr hmv
    simp [detectorStep, hr, hmv]

/-- Witness for C10: an undecodable payload and an object missing its
required keys are both committed and change nothing. -/
theorem detector_skips_malformed_spec_witness :
    detectorStep settings emptyDetector
        { raw := RawValue.undecodable, fresh_uuid := 0, now_ts := sampleTs,
          persist := AnomalyPersist.allOk } = (emptyDetector, true) ∧
      detectorStep settings emptyDetector
        { raw := RawValue.obj [("garbage", JVal.jint 1)], fresh_uuid := 0,
          now_ts := sampleTs, persist := AnomalyPersist.allOk } =
        (emptyDetector, true) := by
  constructor
  · exact (detector_skips_malformed_spec settings emptyDetector
      { raw := RawValue.undecodable, fresh_uuid := 0, now_ts := sampleTs,
        persist := AnomalyPersist.allOk }).1 rfl
  · exact (detector_skips_malformed_spec settings emptyDetector
      { raw := RawValue.obj [("garbage", JVal.jint 1)], fresh_uuid := 0,
        now_ts := sampleTs, persist := AnomalyPersist.allOk }).2
      [("garbage", JVal.jint 1)] "customer_id: Field required" rfl (by rfl)

theorem cpCovers_upsert_self (now : Nat) (cps : List CheckpointRow)
    (g t : String) (p o : Nat) :
    cpCovers (upsert_checkpoint now cps g t p o) g t p o := by
  induction cps with
  | nil =>
    exact ⟨_, List.mem_singleton_self _, rfl, rfl, rfl, le_refl o⟩
  | cons r rest ih =>
    rw [upsert_checkpoint]
    by_cases hk : r.consumer_group = g ∧ r.topic = t ∧ r.partition = p
    · rw [if_pos hk]
      exact ⟨_, List.mem_cons_self _ _, hk.1, hk.2.1, hk.2.2, le_refl o⟩
    · rw [if_neg hk]
      obtain ⟨r', hr', hprops⟩ := ih
      exact ⟨r', List.mem_cons_of_mem _ hr', hprops⟩

theorem cpCovers_upsert_preserve (now : Nat) (g t : String) (p o : Nat)
    {g0 t0 : String} {p0 o0 : Nat} :
    ∀ cps : List CheckpointRow, cpCovers cps g0 t0 p0 o0 →
      (g0 = g → t0 = t → p0 = p → o0 ≤ o) →
      cpCovers (upsert_checkpoint now cps g t p o) g0 t0 p0 o0 := by
  intro cps
  induction cps with
  | nil =>
    rintro ⟨r, hr, _⟩ _
    simp at hr
  | cons r rest ih =>
    rintro ⟨r', hr', hg, ht, hp, ho⟩ hle
    rw [upsert_checkpoint]
    by_cases hk : r.consumer_group = g ∧ r.topic = t ∧ r.partition = p
    · rw [if_pos hk]
      rcases List.mem_cons.mp hr' with rfl | hmem
      · have hoo : o0 ≤ o :=
          hle (hg.symm.trans hk.1) (ht.symm.trans hk.2.1)
            (hp.symm.trans hk.2.2)
        exact ⟨_, List.mem_cons_self _ _, hg, ht, hp, hoo⟩
      · exact ⟨r', List.mem_cons_of_mem _ hmem, hg, ht, hp, ho⟩
    · rw [if_neg hk]
      rcases List.mem_cons.mp hr' with rfl | hmem
      · exact ⟨r', List.mem_cons_self _ _, hg, ht, hp, ho⟩
      · obtain ⟨r'', hr'', hprops⟩ :=
          ih ⟨r', hmem, hg, ht, hp, ho⟩ hle
        exact ⟨r'', List.mem_cons_of_mem _ hr'', hprops⟩

/-- Shape of the database after one ingest step: on the stored path the
checkpoint table was upserted with the message's provenance; on every
other path the database is untouched (the borrowed-connection
transaction either commits both writes or rolls back). -/
theorem ingestStep_checkpoint_shape (cfg : Settings) (db : DbState)
    (m : KMsg) (env : IngestEnv) :
    ((ingestStep cfg db m env).2.outcome = Outcome.stored →
      (ingestStep cfg db m env).1.ingest_checkpoint =
        upsert_checkpoint env.clock db.ingest_checkpoint
          cfg.kafka_consumer_group_db m.topic m.partition m.offset) ∧
    ((ingestStep cfg db m env).2.outcome ≠ Outcome.stored →
      (ingestStep cfg db m env).1 = db) := by
  rcases hr : m.raw with _ | j
  · constructor <;> simp [ingestStep, hr]
  · rcases hmv : model_validate env.fresh_uuid env.now_ts j with msg | e
    · constructor <;> simp [ingestStep, hr, hmv]
    · by_cases hb : cfg.heart_rate_min ≤ e.heart_rate ∧
          e.heart_rate ≤ cfg.heart_rate_max
      · rcases hst : env.store
        · constructor <;> simp [ingestStep, hr, hmv, hb, hst]
        · constructor <;> simp [ingestStep, hr, hmv, hb, hst]
        · constructor <;> simp [ingestStep, hr, hmv, hb, hst]
      · constructor <;> simp [ingestStep, hr, hmv, hb]

/-- Store-path commits of a run are checkpoint-covered, provided the
run starts with every already-store-committed offset covered and
bounded by the incoming offsets, and offsets arrive in per-partition
order. -/
theorem ingestRun_store_covered (cfg : Settings) :
    ∀ (msgs : List (KMsg × IngestEnv)) (st : IngestLoopState),
      (∀ tpo ∈ st.storeCommitted,
        cpCovers st.db.ingest_checkpoint cfg.kafka_consumer_group_db
          tpo.1 tpo.2.1 tpo.2.2) →
      (∀ tpo ∈ st.storeCommitted, ∀ me ∈ msgs,
        tpo.1 = me.1.topic → tpo.2.1 = me.1.partition →
        tpo.2.2 ≤ me.1.offset) →
      OffsetsOrdered msgs →
      ∀ tpo ∈ (ingestRun cfg st msgs).storeCommitted,
        cpCovers (ingestRun cfg st msgs).db.ingest_checkpoint
          cfg.kafka_consumer_group_db tpo.1 tpo.2.1 tpo.2.2 := by
  intro msgs
  induction msgs with
  | nil =>
    intro st hinv _ _
    exact hinv
  | cons me rest ih =>
    intro st hinv hbound hord
    have hord' : OffsetsOrdered rest := (List.pairwise_cons.mp hord).2
    have hhead : ∀ b ∈ rest, me.1.topic = b.1.topic →
        me.1.partition = b.1.partition → me.1.offset ≤ b.1.offset :=
      (List.pairwise_cons.mp hord).1
    have hrun : ingestRun cfg st (me :: rest) =
        ingestRun cfg (ingestLoopStep cfg st me) rest := rfl
    rw [hrun]
    by_cases hstored : (ingestStep cfg st.db me.1 me.2).2.outcome =
        Outcome.stored
    · have hckpt := (ingestStep_checkpoint_shape cfg st.db me.1 me.2).1
        hstored
      have hst' : (ingestLoopStep cfg st me).storeCommitted =
          st.storeCommitted ++ [(me.1.topic, me.1.partition, me.1.offset)] := by
        simp [ingestLoopStep, hstored]
      have hdbck : (ingestLoopStep cfg st me).db.ingest_checkpoint =
          upsert_checkpoint me.2.clock st.db.ingest_checkpoint
            cfg.kafka_consumer_group_db me.1.topic me.1.partition
            me.1.offset := by
        rw [ingestLoopStep]
        exact hckpt
      refine ih (ingestLoopStep cfg st me) ?_ ?_ hord'
      · intro tpo htpo
        rw [hst'] at htpo
        rw [hdbck]
        rcases List.mem_append.mp htpo with hold | hnew
        · exact cpCovers_upsert_preserve me.2.clock
            cfg.kafka_consumer_group_db me.1.topic me.1.partition
            me.1.offset st.db.ingest_checkpoint
            (hinv tpo hold)
            (fun _ ht hp =>
              hbound tpo hold me (List.mem_cons_self _ _) ht hp)
        · rcases List.mem_singleton.mp hnew with rfl
          exact cpCovers_upsert_self me.2.clock st.db.ingest_checkpoint
            cfg.kafka_consumer_group_db me.1.topic me.1.partition
            me.1.offset
      · intro tpo htpo me' hme' ht hp
        rw [hst'] at htpo
        rcases List.mem_append.mp htpo with hold | hnew
        · exact hbound tpo hold me' (List.mem_cons_of_mem _ hme') ht hp
        · rcases List.mem_singleton.mp hnew with rfl
          exact hhead me' hme' ht hp
    · have hdb := (ingestStep_checkpoint_shape cfg st.db me.1 me.2).2
        hstored
      have hst' : (ingestLoopStep cfg st me).storeCommitted =
          st.storeCommitted := by
        simp [ingestLoopStep, hstored]
      have hdb' : (ingestLoopStep cfg st me).db = st.db := by
        rw [ingestLoopStep]
        exact hdb
      refine ih (ingestLoopStep cfg st me) ?_ ?_ hord'
      · intro tpo htpo
        rw [hst'] at htpo
        rw [hdb']
        exact hinv tpo htpo
      · intro tpo htpo me' hme' ht hp
        rw [hst'] at htpo
        exact hbound tpo htpo me' (List.mem_cons_of_mem _ hme') ht hp

/-- C5 counterexample: a run consisting of one undecodable message
commits that message's offset on the validation-quarantine path without
ever touching the checkpoint table, so the committed offset 0 of
partition 0 has no `ingest_checkpoint` row at all — the claim's
invariant fails for offsets committed after a validation quarantine,
which bypass the insert-plus-checkpoint transaction. -/
theorem ingest_checkpoint_claim_counterexample :
    (ingestRun settings initLoopState [badIngestMsg]).committed =
        [("events.raw.v1", 0, 0)] ∧
      (ingestRun settings initLoopState [badIngestMsg]).db.ingest_checkpoint
        = [] ∧
      ¬ ingestCommitCheckpointClaim settings
        (ingestRun settings initLoopState [badIngestMsg]) := by
  refine ⟨rfl, rfl, ?_⟩
  decide

/-- C5 (amended): the heartbeat insert and the checkpoint upsert are
performed within one borrowed connection scope and commit atomically —
a failing store transaction leaves the database unchanged, a successful
one persists both writes — and the Kafka offset commit on the store
path happens only after that transaction succeeds, so (with offsets
arriving in per-partition order) every offset committed after a
successful store write is covered by an `ingest_checkpoint` row for
(consumer group, topic, partition) with `last_offset` at least that
offset.  Offsets committed on the validation-quarantine path carry no
such guarantee. -/
theorem ingest_checkpoint_amended (cfg : Settings) (db0 : DbState)
    (msgs : List (KMsg × IngestEnv)) (hord : OffsetsOrdered msgs) :
    (∀ tpo ∈ (ingestRun cfg
        { db := db0, committed := [], storeCommitted := [] }
        msgs).storeCommitted,
      cpCovers (ingestRun cfg
          { db := db0, committed := [], storeCommitted := [] }
          msgs).db.ingest_checkpoint
        cfg.kafka_consumer_group_db tpo.1 tpo.2.1 tpo.2.2) ∧
    (∀ (db : DbState) (m : KMsg) (env : IngestEnv),
      env.store ≠ StoreOutcome.ok → (ingestStep cfg db m env).1 = db) ∧
    (∀ (db : DbState) (m : KMsg) (env : IngestEnv) (j : JObj)
        (e : HeartbeatEvent), m.raw = RawValue.obj j →
      model_validate env.fresh_uuid env.now_ts j = Except.ok e →
      (cfg.heart_rate_min ≤ e.heart_rate ∧
        e.heart_rate ≤ cfg.heart_rate_max) →
      env.store = StoreOutcome.ok →
      (ingestStep cfg db m env).1 =
        { heartbeat_events :=
            (insert_heartbeat db.heartbeat_events e m.topic m.partition
              m.offset).1,
          ingest_checkpoint :=
            upsert_checkpoint env.clock db.ingest_checkpoint
              cfg.kafka_consumer_group_db m.topic m.partition m.offset,
          anomalies := db.anomalies }) := by
  refine ⟨?_, ?_, ?_⟩
  · refine ingestRun_store_covered cfg msgs
      { db := db0, committed := [], storeCommitted := [] } ?_ ?_ hord
    · intro tpo htpo
      exact absurd htpo (List.not_mem_nil _)
    · intro tpo htpo
      exact absurd htpo (List.not_mem_nil _)
  · intro db m env hst
    rcases hr : m.raw with _ | j
    · simp [ingestStep, hr]
    · rcases hmv : model_validate env.fresh_uuid env.now_ts j with msg | e
      · simp [ingestStep, hr, hmv]
      · by_cases hb : cfg.heart_rate_min ≤ e.heart_rate ∧
            e.heart_rate ≤ cfg.heart_rate_max
        · rcases hsc : env.store
          · exact absurd hsc hst
          · simp [ingestStep, hr, hmv, hb, hsc]
          · simp [ingestStep, hr, hmv, hb, hsc]
        · simp [ingestStep, hr, hmv, hb]
  · intro db m env j e hr hmv hb hst
    simp [ingestStep, hr, hmv, hb, hst]

/-- Witness for the amended C5: after one valid stored message, the
store-committed offset is covered by a checkpoint row. -/
theorem ingest_checkpoint_amended_witness :
    cpCovers (ingestRun settings initLoopState
        [goodIngestMsg]).db.ingest_checkpoint
      "cg.db-writer.v1" "events.raw.v1" 0 0 := by
  have h := (ingest_checkpoint_amended settings emptyDb [goodIngestMsg]
    (by simp [OffsetsOrdered])).1 ("events.raw.v1", 0, 0) (by decide)
  exact h

end HB
